import Mathlib

/-!
Verification development for the dependency-watchdog prober/scaler and
weeder core.  The Go sources are shallowly embedded: pure helper
functions become Lean functions, the cluster state is passed explicitly,
machine integers (`int`, `int32`) are modelled as `Int`, durations as
`Nat`, and fallible operations return `Except` / `Option`.  Stateful or
time-dependent helpers (`Retry`, `RetryOnError`, the watch loop) are
embedded as functions that additionally produce an explicit event trace
or a final virtual time, so that temporal statements (number of calls,
sleeps, cancellation behaviour) become statements about those traces.
-/

namespace DWD

/-- A `time.Duration`, modelled as a natural number of abstract ticks. -/
abbrev Duration := Nat

/-- Embedding of `autoscalingv1.CrossVersionObjectReference` (the fields used
by the scaler: `Kind`, `Name`, `APIVersion`). -/
structure CrossVersionObjectReference where
  kind : String
  name : String
  apiVersion : String
  deriving DecidableEq, Repr

/-- Embedding of `scaleableResourceInfo` from `internal/prober/scaler.go`:
a flattened scale-up or scale-down resource info for one resource
reference.  Go's `int` level and `int32` replicas are both modelled as
`Int` (no arithmetic is performed on them, only comparisons, so overflow
cannot occur). -/
structure ScaleableResourceInfo where
  ref : CrossVersionObjectReference
  level : Int
  initialDelay : Duration
  timeout : Duration
  replicas : Int
  deriving DecidableEq, Repr

/-- The annotation key `ignoreScalingAnnotationKey` from `scaler.go`. -/
def ignoreScalingAnnotationKey : String :=
  "dependency-watchdog.gardener.cloud/ignore-scaling"

/-- Insertion of one level into an ascending list, auxiliary for the
embedding of `sort.Ints` used by `sortAndGetUniqueLevels`. -/
def insertLevel (x : Int) : List Int → List Int
  | [] => [x]
  | y :: ys => if x ≤ y then x :: y :: ys else y :: insertLevel x ys

/-- Ascending insertion sort on levels, embedding `sort.Ints`. -/
def sortLevels : List Int → List Int
  | [] => []
  | x :: xs => insertLevel x (sortLevels xs)

/-- Embedding of `sortAndGetUniqueLevels` from `scaler.go`: collect each
level at its first occurrence (the Go loop over `resourceInfos` guarded
by the `keys` set), then sort ascending (`sort.Ints`). -/
def sortAndGetUniqueLevels (resourceInfos : List ScaleableResourceInfo) : List Int :=
  sortLevels (resourceInfos.foldl
    (fun levels resInfo =>
      if levels.contains resInfo.level then levels else levels ++ [resInfo.level])
    [])

/-- Embedding of `collectResourceInfosByLevel` from `scaler.go`.  The Go
function builds a map from level to the records carrying that level, by
appending each record (in input order) to its level's slice; for a fixed
level the resulting slice is therefore exactly the input list filtered
to that level.  The map is modelled as a function from level to slice,
with an absent key represented by the empty slice (the Go `ok` lookup
flag is `true` exactly when the slice is non-empty, since values are
only ever created non-empty). -/
def collectResourceInfosByLevel (resourceInfos : List ScaleableResourceInfo)
    (level : Int) : List ScaleableResourceInfo :=
  resourceInfos.filter (fun resInfo => resInfo.level == level)

/-- Defunctionalized representation of a `flow.TaskFn` value as built by
`createScaleTaskFn`: the nil function (Go's zero value for a function
type), the per-record scale closure (recording the captured record and
captured `waitOnResourceInfos`; the captured namespace and mismatch
predicate are uniform across a flow and are not part of the identity of
a task function), or `flow.Parallel` applied to a list of task
functions. -/
inductive TaskFnRepr where
  | nilFn : TaskFnRepr
  | scaleFn (resourceInfo : ScaleableResourceInfo)
      (waitOn : List ScaleableResourceInfo) : TaskFnRepr
  | parallel (fns : List TaskFnRepr) : TaskFnRepr

/-- Embedding of `createScaleTaskFn` from `scaler.go`.  Faithful to the
source: `taskFns := make([]flow.TaskFn, len(resourceInfos))` allocates a
slice of `len(resourceInfos)` nil entries, and the loop then *appends*
one closure per record after those nil slots.  For a single record the
function returns `taskFns[0]` (a nil slot); otherwise it returns
`flow.Parallel(taskFns...)` over the padded slice.  Go 1.22 per-iteration
loop-variable semantics are modelled: each closure captures its own
`resourceInfo`.  An empty input returns Go `nil` (`.nilFn`). -/
def createScaleTaskFn (resourceInfos : List ScaleableResourceInfo)
    (waitOnResourceInfos : List ScaleableResourceInfo) : TaskFnRepr :=
  if resourceInfos.isEmpty then TaskFnRepr.nilFn
  else
    let taskFns : List TaskFnRepr :=
      List.replicate resourceInfos.length TaskFnRepr.nilFn ++
        resourceInfos.map
          (fun resourceInfo => TaskFnRepr.scaleFn resourceInfo waitOnResourceInfos)
    if resourceInfos.length == 1 then taskFns.headD TaskFnRepr.nilFn
    else TaskFnRepr.parallel taskFns

/-- The task name built by `createResourceScaleFlow` via `fmt.Sprintf`.
The gardener flow library uses `Task.Name` as the `TaskID` returned by
`Graph.Add`; the `%d`-rendered level makes names distinct per level (the
`%v`-rendered record list is omitted here as it adds nothing to
distinctness). -/
def taskName (level : Int) : String :=
  "scaling dependencies at level " ++ toString level

/-- One node of the compiled flow, mirroring what `Graph.Add` receives in
`createResourceScaleFlow`: the task name (= its TaskID in the gardener
flow library), the `waitOnResourceInfos` argument handed to
`createScaleTaskFn`, the task function, and the declared dependency set
`flow.NewTaskIDs(previousTaskID)`. -/
structure FlowStep where
  name : String
  waitOn : List ScaleableResourceInfo
  fn : TaskFnRepr
  dependencies : List String

/-- Embedding of Go's `copy(dst, src)` for slices: the first
`min (dst.length) (src.length)` elements of `dst` are overwritten by the
corresponding elements of `src`; the length of `dst` is unchanged.  In
particular `copy` into a nil/empty destination copies nothing. -/
def copySlice (dst src : List ScaleableResourceInfo) : List ScaleableResourceInfo :=
  src.take (min dst.length src.length) ++ dst.drop (min dst.length src.length)

/-- The loop body of `createResourceScaleFlow` from `scaler.go`, faithful
to the source: `var previousTaskID flow.TaskID` is declared *inside* the
loop, so at every `g.Add` it holds the zero `TaskID` (the empty string),
and the trailing `previousTaskID = taskID` assignment is dead;
`copy(previousLevelResourceInfos, resInfos)` copies into the accumulated
slice, which starts nil and therefore never grows.  `Dependencies:
flow.NewTaskIDs(previousTaskID)` is the singleton set holding that zero
TaskID. -/
def flowLoop (ordered : Int → List ScaleableResourceInfo) :
    List Int → List ScaleableResourceInfo → List FlowStep
  | [], _ => []
  | level :: rest, previousLevelResourceInfos =>
    let previousTaskID : String := ""
    let resInfos := ordered level
    if resInfos.isEmpty then flowLoop ordered rest previousLevelResourceInfos
    else
      { name := taskName level,
        waitOn := previousLevelResourceInfos,
        fn := createScaleTaskFn resInfos previousLevelResourceInfos,
        dependencies := [previousTaskID] } ::
        flowLoop ordered rest (copySlice previousLevelResourceInfos resInfos)

/-- Embedding of `createResourceScaleFlow` from `scaler.go`: sort the
unique levels, group the records by level, and add one task per level
present. -/
def createResourceScaleFlow (resourceInfos : List ScaleableResourceInfo) :
    List FlowStep :=
  flowLoop (collectResourceInfosByLevel resourceInfos)
    (sortAndGetUniqueLevels resourceInfos) []

/-- The `cluster-autoscaler` record at level 1 from the scaler test /
spec DAG-shape scenario (`{CA:1, MCM:0, KCM:0}`, scale-down direction,
target replicas 0). -/
def caInfo : ScaleableResourceInfo :=
  { ref := { kind := "Deployment", name := "cluster-autoscaler", apiVersion := "apps/v1" },
    level := 1, initialDelay := 10, timeout := 20, replicas := 0 }

/-- The `machine-controller-manager` record at level 0 from the same
scenario. -/
def mcmInfo : ScaleableResourceInfo :=
  { ref := { kind := "Deployment", name := "machine-controller-manager", apiVersion := "apps/v1" },
    level := 0, initialDelay := 10, timeout := 20, replicas := 0 }

/-- The `kube-controller-manager` record at level 0 from the same
scenario. -/
def kcmInfo : ScaleableResourceInfo :=
  { ref := { kind := "Deployment", name := "kube-controller-manager", apiVersion := "apps/v1" },
    level := 0, initialDelay := 10, timeout := 20, replicas := 0 }

/-- The record list of the DAG-shape scenario, in the order used by the
source test `testCreateResourceScaleFlow`. -/
def demoResourceInfos : List ScaleableResourceInfo := [caInfo, mcmInfo, kcmInfo]

/-- Embedding of the fields of a `appsv1.Deployment` read by the scaler:
its name, its annotation map (`ObjectMeta.Annotations`, modelled as an
association list), `Spec.Replicas` (dereferenced unconditionally by
`shouldScale`, so modelled as a plain `Int`) and `Status.Replicas`. -/
structure Deployment where
  name : String
  annotations : List (String × String)
  specReplicas : Int
  statusReplicas : Int
  deriving DecidableEq, Repr

/-- The visible cluster state for one namespace: the deployments living in
it.  `client.Get` and the scale-subresource update are modelled against
this state. -/
structure ClusterState where
  deployments : List Deployment
  deriving DecidableEq, Repr

/-- Errors surfaced by the embedded scale action: the not-found error
returned by the client when the deployment is absent, and the context
cancellation error returned by `util.SleepWithContext`. -/
inductive ScaleErr where
  | notFound : ScaleErr
  | ctxCancelled : ScaleErr
  deriving DecidableEq, Repr

/-- Modelled from the spec: `util.GetDeploymentFor` (in `internal/util`,
not under the provided sources) fetches the current workload for a name
in the namespace, returning the client's not-found error when it is
absent ("Fetch current workload for `r.ref.name` in the namespace",
spec section 4.3). -/
def GetDeploymentFor (st : ClusterState) (name : String) : Except ScaleErr Deployment :=
  match st.deployments.find? (fun d => d.name == name) with
  | some d => Except.ok d
  | none => Except.error ScaleErr.notFound

/-- Embedding of `isIgnoreScalingAnnotationSet` from `scaler.go`: the
annotation map is consulted for `ignoreScalingAnnotationKey`; when the
key is present the result is whether its value equals `"true"`, and
`false` otherwise. -/
def isIgnoreScalingAnnotationSet (deployment : Deployment) : Bool :=
  match deployment.annotations.find? (fun kv => kv.1 == ignoreScalingAnnotationKey) with
  | some kv => kv.2 == "true"
  | none => false

/-- Modelled from the spec: `util.ScaleUpReplicasMismatch` (in
`internal/util`, not under the provided sources) — "Scale-up uses
current < target" (spec section 4.3, Mismatch predicates). -/
def ScaleUpReplicasMismatch (replicas targetReplicas : Int) : Bool :=
  replicas < targetReplicas

/-- Modelled from the spec: `util.ScaleDownReplicasMismatch` (in
`internal/util`, not under the provided sources) — "scale-down uses
current > target" (spec section 4.3, Mismatch predicates). -/
def ScaleDownReplicasMismatch (replicas targetReplicas : Int) : Bool :=
  replicas > targetReplicas

/-- The upstream wait-on check inside `shouldScale` (`scaler.go` lines
161–174): for each upstream record, fetch its deployment; on any fetch
error return `false`; if the upstream's *status* replicas still mismatch
its target replicas, return `false`; otherwise continue.  The Go `if
waitOnResourceInfos != nil` guard is subsumed by the empty-list case. -/
def waitOnCheck (st : ClusterState) (mismatchReplicas : Int → Int → Bool) :
    List ScaleableResourceInfo → Bool
  | [] => true
  | upstream :: rest =>
    match GetDeploymentFor st upstream.ref.name with
    | Except.error _ => false
    | Except.ok upstreamDeployment =>
      if mismatchReplicas upstreamDeployment.statusReplicas upstream.replicas then false
      else waitOnCheck st mismatchReplicas rest

/-- Embedding of `shouldScale` from `scaler.go`: scaling is skipped when
the ignore-scaling annotation is set, when the deployment's spec
replicas do not mismatch the target, or when some wait-on upstream's
status replicas still mismatch that upstream's target. -/
def shouldScale (st : ClusterState) (deployment : Deployment) (targetReplicas : Int)
    (mismatchReplicas : Int → Int → Bool)
    (waitOnResourceInfos : List ScaleableResourceInfo) : Bool :=
  if isIgnoreScalingAnnotationSet deployment then false
  else if !mismatchReplicas deployment.specReplicas targetReplicas then false
  else waitOnCheck st mismatchReplicas waitOnResourceInfos

/-- A write issued against the cluster API: the scale-subresource update
`scale.Spec.Replicas = r.replicas; Update(...)` performed by `doScale`. -/
inductive ScaleWrite where
  | setScale (name : String) (replicas : Int) : ScaleWrite
  deriving DecidableEq, Repr

/-- State after `doScale` succeeds for a record: the scale subresource of
the named workload carries the record's replicas, i.e. the deployment's
spec replicas are updated (all reads and the REST mapping resolution are
modelled as pure lookups on the state). -/
def applyScaleUpdate (st : ClusterState) (name : String) (replicas : Int) : ClusterState :=
  { deployments :=
      st.deployments.map (fun d =>
        if d.name == name then { d with specReplicas := replicas } else d) }

/-- Outcome of one run of the `scale` method: the resulting cluster
state, the list of scale writes issued, and the error it returns (`none`
is Go `nil`, i.e. success). -/
structure ScaleOutcome where
  state : ClusterState
  writes : List ScaleWrite
  err : Option ScaleErr
  deriving DecidableEq, Repr

/-- Embedding of the `scale` method from `scaler.go`: fetch the
deployment (any fetch error, including not-found, is logged and
*returned*); sleep the record's initial delay via
`util.SleepWithContext` (modelled by the `ctxCancelled` flag: a
cancelled context aborts with the context error); consult `shouldScale`;
if it allows, run `doScale` under the inner bounded retry (in this pure
state model the first attempt succeeds, and the source discards the
retry result anyway) and return `nil`; otherwise return `nil` without
writing. -/
def scale (st : ClusterState) (ctxCancelled : Bool) (resourceInfo : ScaleableResourceInfo)
    (mismatchReplicas : Int → Int → Bool)
    (waitOnResourceInfos : List ScaleableResourceInfo) : ScaleOutcome :=
  match GetDeploymentFor st resourceInfo.ref.name with
  | Except.error e => { state := st, writes := [], err := some e }
  | Except.ok deployment =>
    if ctxCancelled then { state := st, writes := [], err := some ScaleErr.ctxCancelled }
    else if shouldScale st deployment resourceInfo.replicas mismatchReplicas
        waitOnResourceInfos then
      { state := applyScaleUpdate st resourceInfo.ref.name resourceInfo.replicas,
        writes := [ScaleWrite.setScale resourceInfo.ref.name resourceInfo.replicas],
        err := none }
    else { state := st, writes := [], err := none }

/-- A context deadline for the retry helpers: `none` means the context is
never done, `some d` means the context becomes done at virtual time `d`. -/
abbrev CtxDoneAt := Option Nat

/-- Whether the context observed at virtual time `t` is done
(`ctx.Done()` fires). -/
def ctxIsDone (doneAt : CtxDoneAt) (t : Nat) : Bool :=
  match doneAt with
  | none => false
  | some d => d ≤ t

/-- Observable events of one `util.Retry` run: an invocation of `fn`
(1-indexed attempt number) or a backoff sleep of the recorded actual
duration. -/
inductive REvent where
  | call (i : Nat) : REvent
  | sleep (d : Nat) : REvent
  deriving DecidableEq, Repr

/-- Errors carried by a `util.RetryResult`: the context's error or the
last error returned by `fn`. -/
inductive RErr (E : Type) where
  | ctxErr : RErr E
  | fnErr (e : E) : RErr E
  deriving DecidableEq, Repr

/-- Embedding of `util.RetryResult[T]`: `value?` is `Value` when a
success value was produced, `err?` is `Err` (`none` is Go `nil`). -/
structure RetryResult (T E : Type) where
  value? : Option T
  err? : Option (RErr E)
  deriving DecidableEq, Repr

/-- The loop of `util.Retry` from `internal/util` (`src/unnamed/part_001`),
embedded with an explicit event trace and virtual time.  Per iteration:
a non-blocking `ctx.Done()` check (returns the context error when done);
`fn` is invoked (attempt `i`, taking no virtual time); success returns
immediately; a non-retriable error returns the error; otherwise the
backoff select sleeps — if the context becomes done before the backoff
elapses (`d ≤ t + backOff`, the context branch winning the race at
equality) the sleep is cut short at time `d` and the context error is
returned, else a full `backOff` sleep is taken and the loop continues.
After the last attempt the loop exits carrying the last error. -/
def retryAux {T E : Type} (doneAt : CtxDoneAt) (fn : Nat → Except E T)
    (canRetry : E → Bool) (backOff : Nat) :
    Nat → Nat → Nat → Option E → List REvent × Nat × RetryResult T E
  | 0, _, t, lastErr => ([], t, { value? := none, err? := lastErr.map RErr.fnErr })
  | remaining + 1, i, t, _lastErr =>
    if ctxIsDone doneAt t then ([], t, { value? := none, err? := some RErr.ctxErr })
    else
      match fn i with
      | Except.ok v => ([REvent.call i], t, { value? := some v, err? := none })
      | Except.error e =>
        if canRetry e then
          match doneAt with
          | some d =>
            if d ≤ t + backOff then
              ([REvent.call i, REvent.sleep (d - t)], d,
                { value? := none, err? := some RErr.ctxErr })
            else
              let rest := retryAux doneAt fn canRetry backOff remaining (i + 1)
                (t + backOff) (some e)
              (REvent.call i :: REvent.sleep backOff :: rest.1, rest.2)
          | none =>
            let rest := retryAux doneAt fn canRetry backOff remaining (i + 1)
              (t + backOff) (some e)
            (REvent.call i :: REvent.sleep backOff :: rest.1, rest.2)
        else ([REvent.call i], t, { value? := none, err? := some (RErr.fnErr e) })

/-- Embedding of `util.Retry`: run the loop for `numAttempts` attempts
starting at attempt 1 and virtual time 0 with no last error.  Returns
the event trace, the final virtual time, and the `RetryResult`. -/
def Retry {T E : Type} (doneAt : CtxDoneAt) (fn : Nat → Except E T)
    (canRetry : E → Bool) (numAttempts : Nat) (backOff : Nat) :
    List REvent × Nat × RetryResult T E :=
  retryAux doneAt fn canRetry backOff numAttempts 1 0 none

/-- Number of `fn` invocations recorded in a retry trace. -/
def countCalls (trace : List REvent) : Nat :=
  trace.countP (fun ev => match ev with | REvent.call _ => true | _ => false)

/-- How one run of `util.RetryOnError` exits: the context was done at an
iteration boundary, or `retriableFn` returned nil. -/
inductive ROExit where
  | ctxDone : ROExit
  | success : ROExit
  deriving DecidableEq, Repr

/-- The loop of `util.RetryOnError` from `internal/util`
(`src/unnamed/part_001`), embedded with virtual time and bounded by
fuel (`none` means the fuel ran out before the loop exited).  Per
iteration: a non-blocking `ctx.Done()` check; then `retriableFn` is
invoked (iteration `k`, taking no virtual time); on error the loop does
a plain `time.Sleep(interval)` — which always runs for the full
interval, with no context case — and continues; on success it returns.
The exit value records the final virtual time and the exit kind. -/
def retryOnErrorAux (doneAt : CtxDoneAt) (fails : Nat → Bool) (interval : Nat) :
    Nat → Nat → Nat → Option (Nat × ROExit)
  | 0, _, _ => none
  | fuel + 1, k, t =>
    if ctxIsDone doneAt t then some (t, ROExit.ctxDone)
    else if fails k then retryOnErrorAux doneAt fails interval fuel (k + 1) (t + interval)
    else some (t, ROExit.success)

/-- Embedding of `util.RetryOnError` (as invoked by
`podWatcher.createK8sWatch` with the fixed `watchCreationRetryInterval`):
start at iteration 0 and virtual time 0. -/
def RetryOnError (doneAt : CtxDoneAt) (fails : Nat → Bool) (interval : Nat)
    (fuel : Nat) : Option (Nat × ROExit) :=
  retryOnErrorAux doneAt fails interval fuel 0 0

/-- Embedding of `watch.EventType` (`Added`, `Modified`, `Deleted`,
`Bookmark`, `Error`). -/
inductive EventType where
  | added : EventType
  | modified : EventType
  | deleted : EventType
  | bookmark : EventType
  | errorType : EventType
  deriving DecidableEq, Repr

/-- The identifying fields of a `v1.Pod` used by the weeder's watch loop
(`targetPod.Namespace`, `targetPod.Name`). -/
structure PodInfo where
  podNamespace : String
  podName : String
  deriving DecidableEq, Repr

/-- The runtime object carried by a watch event: a `*v1.Pod`, or any
other object kind (the `default` arm of the type switch). -/
inductive WatchObject where
  | pod (p : PodInfo) : WatchObject
  | other (kind : String) : WatchObject
  deriving DecidableEq, Repr

/-- Embedding of `watch.Event`: its type and its object. -/
structure WatchEvent where
  type : EventType
  object : WatchObject
  deriving DecidableEq, Repr

/-- Embedding of `canProcessEvent` from the weeder's pod watcher
(`src/unnamed/part_002`): `Added` or `Modified` events whose object is a
`*v1.Pod` can be processed; everything else cannot. -/
def canProcessEvent (ev : WatchEvent) : Bool :=
  if ev.type == EventType.added || ev.type == EventType.modified then
    match ev.object with
    | WatchObject.pod _ => true
    | WatchObject.other _ => false
  else false

/-- One receive on the watch result channel inside `podWatcher.watch`: the
channel was closed (`ok == false`, triggering watch re-creation and
`continue`), or an event was delivered. -/
inductive WatchItem where
  | closed : WatchItem
  | ev (e : WatchEvent) : WatchItem
  deriving DecidableEq, Repr

/-- The event-processing skeleton of `podWatcher.watch`
(`src/unnamed/part_002`), over a finite list of channel receives: a
closed channel re-creates the watch and continues; an event failing
`canProcessEvent` is discarded and the loop continues; an accepted event
has `eventHandlerFn` invoked on it.  Returns the list of events the
handler is invoked for, in order. -/
def watchHandled : List WatchItem → List WatchEvent
  | [] => []
  | WatchItem.closed :: rest => watchHandled rest
  | WatchItem.ev e :: rest =>
    if canProcessEvent e then e :: watchHandled rest else watchHandled rest

/-- Embedding of the `validator` accumulator from
`internal/prober/validator.go`: the `error` field accumulates messages
via `multierr.Append`, modelled as a list of messages. -/
structure Validator where
  errs : List String
  deriving DecidableEq, Repr

/-- The error message appended by `MustBeGreaterThan` (the `fmt.Errorf`
format instantiated; the `%d` verb applied to the *pointer* argument
renders an address, modelled here by rendering the pointed-to value —
the message content is irrelevant to the claims). -/
def mustBeGreaterThanMsg (key : String) (lowerLimit value : Int) : String :=
  key ++ " must have a value greater than " ++ toString lowerLimit ++
    ". Found value " ++ toString value

/-- Embedding of `validator.MustBeGreaterThan` from `validator.go`: the
nil check on `value` is absent in the source (a nil pointer is
dereferenced unconditionally), so the model takes the pointed-to `Int`
directly; when `*value < lowerLimit` an error is appended and `false`
returned, otherwise the validator is untouched and `true` returned. -/
def MustBeGreaterThan (v : Validator) (key : String) (value : Int)
    (lowerLimit : Int) : Validator × Bool :=
  if value < lowerLimit then
    ({ errs := v.errs ++ [mustBeGreaterThanMsg key lowerLimit value] }, false)
  else (v, true)



/-- A deployment carrying the ignore-scaling annotation with value
`"true"` and a replica count (1) that mismatches the scale-down target
(0) of `caInfo`. -/
def annotatedCADeployment : Deployment :=
  { name := "cluster-autoscaler",
    annotations := [(ignoreScalingAnnotationKey, "true")],
    specReplicas := 1, statusReplicas := 1 }

/-- A cluster state holding only `annotatedCADeployment`. -/
def annotatedState : ClusterState := { deployments := [annotatedCADeployment] }

/-- A `kube-controller-manager` deployment whose spec replicas already
equal the scale-down target (0) of `kcmInfo`. -/
def settledKCMDeployment : Deployment :=
  { name := "kube-controller-manager", annotations := [],
    specReplicas := 0, statusReplicas := 0 }

/-- A cluster state holding only `settledKCMDeployment`. -/
def settledState : ClusterState := { deployments := [settledKCMDeployment] }

/-- A sample accepted watch event: a `Modified` event for a pod. -/
def samplePodEvent : WatchEvent :=
  { type := EventType.modified,
    object := WatchObject.pod { podNamespace := "shoot-ns", podName := "etcd-0" } }


/-- Auxiliary: the retry loop with `remaining` attempts left records at
most `remaining` invocations of `fn` in its trace. -/
theorem retryAux_countCalls_le {T E : Type} (doneAt : CtxDoneAt) (fn : Nat → Except E T)
    (canRetry : E → Bool) (backOff : Nat) (remaining i t : Nat) (lastErr : Option E) :
    countCalls (retryAux doneAt fn canRetry backOff remaining i t lastErr).1 ≤ remaining := by
  induction remaining generalizing i t lastErr with
  | zero => simp [retryAux, countCalls]
  | succ rem ih =>
    by_cases hctx : ctxIsDone doneAt t = true
    · simp [retryAux, hctx, countCalls]
    · cases hfn : fn i with
      | ok v => simp [retryAux, hctx, hfn, countCalls]
      | error e =>
        by_cases hcr : canRetry e = true
        · cases doneAt with
          | some d =>
            by_cases hd : d ≤ t + backOff
            · simp [retryAux, hctx, hfn, hcr, hd, countCalls, List.countP_cons]
            · have := ih (i + 1) (t + backOff) (some e)
              simp only [countCalls] at this ⊢
              simp [retryAux, hctx, hfn, hcr, hd, List.countP_cons]
              omega
          | none =>
            have := ih (i + 1) (t + backOff) (some e)
            simp only [countCalls] at this ⊢
            simp [retryAux, hctx, hfn, hcr, List.countP_cons]
            omega
        · simp [retryAux, hctx, hfn, hcr, countCalls]

/-- Auxiliary: a success value carried by the retry loop's result was
produced by `fn` at some attempt within the remaining window. -/
theorem retryAux_value_some {T E : Type} (doneAt : CtxDoneAt) (fn : Nat → Except E T)
    (canRetry : E → Bool) (backOff : Nat) (remaining i t : Nat) (lastErr : Option E)
    (v : T)
    (h : (retryAux doneAt fn canRetry backOff remaining i t lastErr).2.2.value? = some v) :
    ∃ j, i ≤ j ∧ j < i + remaining ∧ fn j = Except.ok v := by
  induction remaining generalizing i t lastErr with
  | zero => simp [retryAux] at h
  | succ rem ih =>
    by_cases hctx : ctxIsDone doneAt t = true
    · simp [retryAux, hctx] at h
    · cases hfn : fn i with
      | ok w =>
        simp [retryAux, hctx, hfn] at h
        exact ⟨i, le_refl i, by omega, by rw [hfn, h]⟩
      | error e =>
        by_cases hcr : canRetry e = true
        · cases doneAt with
          | some d =>
            by_cases hd : d ≤ t + backOff
            · simp [retryAux, hctx, hfn, hcr, hd] at h
            · simp only [retryAux, hctx, hfn, hcr, hd] at h
              simp only [Bool.false_eq_true, if_false, if_neg hd] at h
              obtain ⟨j, hj1, hj2, hj3⟩ := ih (i + 1) (t + backOff) (some e) h
              exact ⟨j, by omega, by omega, hj3⟩
          | none =>
            simp only [retryAux, hctx, hfn, hcr] at h
            simp only [Bool.false_eq_true, if_false] at h
            obtain ⟨j, hj1, hj2, hj3⟩ := ih (i + 1) (t + backOff) (some e) h
            exact ⟨j, by omega, by omega, hj3⟩
        · simp [retryAux, hctx, hfn, hcr] at h

/-- Auxiliary: an `fn` error carried by the retry loop's result was
produced by `fn` at some attempt within the remaining window, or was the
carried-in last error. -/
theorem retryAux_err_fn {T E : Type} (doneAt : CtxDoneAt) (fn : Nat → Except E T)
    (canRetry : E → Bool) (backOff : Nat) (remaining i t : Nat) (lastErr : Option E)
    (e : E)
    (h : (retryAux doneAt fn canRetry backOff remaining i t lastErr).2.2.err? =
      some (RErr.fnErr e)) :
    (∃ j, i ≤ j ∧ j < i + remaining ∧ fn j = Except.error e) ∨ lastErr = some e := by
  induction remaining generalizing i t lastErr with
  | zero =>
    simp [retryAux] at h
    cases lastErr with
    | none => simp at h
    | some e' => simp at h; right; rw [h]
  | succ rem ih =>
    by_cases hctx : ctxIsDone doneAt t = true
    · simp [retryAux, hctx] at h
    · cases hfn : fn i with
      | ok w => simp [retryAux, hctx, hfn] at h
      | error e' =>
        by_cases hcr : canRetry e' = true
        · cases doneAt with
          | some d =>
            by_cases hd : d ≤ t + backOff
            · simp [retryAux, hctx, hfn, hcr, hd] at h
            · simp only [retryAux, hctx, hfn, hcr, hd] at h
              simp only [Bool.false_eq_true, if_false, if_neg hd] at h
              rcases ih (i + 1) (t + backOff) (some e') h with ⟨j, hj1, hj2, hj3⟩ | hlast
              · exact Or.inl ⟨j, by omega, by omega, hj3⟩
              · refine Or.inl ⟨i, le_refl i, by omega, ?_⟩
                rw [hfn]
                exact congrArg Except.error (Option.some.inj hlast)
          | none =>
            simp only [retryAux, hctx, hfn, hcr] at h
            simp only [Bool.false_eq_true, if_false] at h
            rcases ih (i + 1) (t + backOff) (some e') h with ⟨j, hj1, hj2, hj3⟩ | hlast
            · exact Or.inl ⟨j, by omega, by omega, hj3⟩
            · refine Or.inl ⟨i, le_refl i, by omega, ?_⟩
              rw [hfn]
              exact congrArg Except.error (Option.some.inj hlast)
        · simp [retryAux, hctx, hfn, hcr] at h
          exact Or.inl ⟨i, le_refl i, by omega, by rw [hfn, h]⟩

/-- Auxiliary: with a context that becomes done at time `d`, the retry
loop never runs past `d` — every backoff select is cut short at the
cancellation time. -/
theorem retryAux_time_le {T E : Type} (fn : Nat → Except E T) (canRetry : E → Bool)
    (backOff d : Nat) (remaining i t : Nat) (lastErr : Option E) (ht : t ≤ d) :
    (retryAux (some d) fn canRetry backOff remaining i t lastErr).2.1 ≤ d := by
  induction remaining generalizing i t lastErr with
  | zero => simpa [retryAux] using ht
  | succ rem ih =>
    by_cases hctx : ctxIsDone (some d) t = true
    · simpa [retryAux, hctx] using ht
    · cases hfn : fn i with
      | ok v => simpa [retryAux, hctx, hfn] using ht
      | error e =>
        by_cases hcr : canRetry e = true
        · by_cases hd : d ≤ t + backOff
          · simp [retryAux, hctx, hfn, hcr, hd]
          · have := ih (i + 1) (t + backOff) (some e) (by omega)
            simpa [retryAux, hctx, hfn, hcr, hd] using this
        · simpa [retryAux, hctx, hfn, hcr] using ht

/-- Auxiliary: whenever the `RetryOnError` loop exits, its final time is
the start time plus a whole number of full sleep intervals — no sleep is
ever cut short, a cancellation mid-sleep included. -/
theorem retryOnErrorAux_time (doneAt : CtxDoneAt) (fails : Nat → Bool) (interval : Nat)
    (fuel k t tf : Nat) (ex : ROExit)
    (h : retryOnErrorAux doneAt fails interval fuel k t = some (tf, ex)) :
    ∃ m, tf = t + m * interval := by
  induction fuel generalizing k t with
  | zero => simp [retryOnErrorAux] at h
  | succ f ih =>
    by_cases hctx : ctxIsDone doneAt t = true
    · simp [retryOnErrorAux, hctx] at h
      exact ⟨0, by omega⟩
    · by_cases hf : fails k = true
      · simp only [retryOnErrorAux, hctx, hf] at h
        simp only [Bool.false_eq_true, if_false, if_pos hf] at h
        obtain ⟨m, hm⟩ := ih (k + 1) (t + interval) h
        refine ⟨m + 1, ?_⟩
        rw [Nat.succ_mul]
        omega
      · simp [retryOnErrorAux, hctx, hf] at h
        exact ⟨0, by omega⟩

/-- Auxiliary: a successful fetch still succeeds after the scale update,
returning the deployment with its spec replicas overwritten. -/
theorem getDeploymentFor_applyScaleUpdate (st : ClusterState) (name : String) (rep : Int)
    (d : Deployment) (h : GetDeploymentFor st name = Except.ok d) :
    GetDeploymentFor (applyScaleUpdate st name rep) name =
      Except.ok { d with specReplicas := rep } := by
  obtain ⟨l⟩ := st
  induction l with
  | nil => simp [GetDeploymentFor] at h
  | cons x xs ih =>
    by_cases hx : (x.name == name) = true
    · have hfind : List.find? (fun d => d.name == name) (x :: xs) = some x := by
        simp [List.find?, hx]
      have hxd : x = d := by
        simp only [GetDeploymentFor, hfind] at h
        exact Except.ok.inj h
      subst hxd
      simp [GetDeploymentFor, applyScaleUpdate, List.find?, hx]
    · rw [Bool.not_eq_true] at hx
      have h' : GetDeploymentFor { deployments := xs } name = Except.ok d := by
        simp only [GetDeploymentFor, List.find?] at h ⊢
        simpa [hx] using h
      have hres := ih h'
      simp only [GetDeploymentFor, applyScaleUpdate, List.map_cons, List.find?] at hres ⊢
      simpa [hx] using hres

/-- Auxiliary: the watch loop invokes the event handler exactly on the
delivered events that pass `canProcessEvent`; closed-channel receives
and discarded events are skipped and the loop continues. -/
theorem watchHandled_mem (items : List WatchItem) (e : WatchEvent) :
    e ∈ watchHandled items ↔ WatchItem.ev e ∈ items ∧ canProcessEvent e = true := by
  induction items with
  | nil => simp [watchHandled]
  | cons x rest ih =>
    cases x with
    | closed => simp [watchHandled, ih]
    | ev e' =>
      by_cases hcp : canProcessEvent e' = true
      · simp only [watchHandled, if_pos hcp, List.mem_cons, ih]
        constructor
        · rintro (rfl | ⟨hm, hc⟩)
          · exact ⟨Or.inl rfl, hcp⟩
          · exact ⟨Or.inr hm, hc⟩
        · rintro ⟨h | hm, hc⟩
          · exact Or.inl (WatchItem.ev.inj h)
          · exact Or.inr ⟨hm, hc⟩
      · simp only [watchHandled, if_neg hcp, List.mem_cons, ih]
        constructor
        · rintro ⟨hm, hc⟩
          exact ⟨Or.inr hm, hc⟩
        · rintro ⟨h | hm, hc⟩
          · exact absurd (WatchItem.ev.inj h ▸ hc) hcp
          · exact ⟨hm, hc⟩

/-- Auxiliary: `canProcessEvent` holds exactly on `Added`/`Modified`
events carrying a Pod object. -/
theorem canProcessEvent_iff (e : WatchEvent) :
    canProcessEvent e = true ↔
      ((e.type = EventType.added ∨ e.type = EventType.modified) ∧
        ∃ p, e.object = WatchObject.pod p) := by
  obtain ⟨ty, obj⟩ := e
  cases ty <;> cases obj <;> simp [canProcessEvent]

/-- C1: the claim states that in the flow compiled by
`createResourceScaleFlow` the task of each level above the lowest
receives exactly the immediately lower level's records as its wait-on
set.  The code violates this: on the spec's own DAG-shape scenario
(records at levels CA:1, MCM:0, KCM:0) the compiled flow has two tasks
and the level-1 task's wait-on set is empty instead of the level-0
records — `copy(previousLevelResourceInfos, resInfos)` copies into a
slice that starts nil, which is a no-op, so nothing is carried forward
(the source test expects `waitOnResourceInfos` of the second step to
equal the MCM and KCM records). -/
theorem scaleFlow_waitOn_lost_bug :
    (createResourceScaleFlow demoResourceInfos).map FlowStep.waitOn = [[], []] ∧
    (createResourceScaleFlow demoResourceInfos).map FlowStep.waitOn ≠
      [[], [mcmInfo, kcmInfo]] :=
  ⟨rfl, by decide⟩

/-- C2: the claim states that the task added for each level other than
the lowest declares as its sole dependency the task ID of the
immediately lower level's task, and that the lowest-level task has no
dependencies.  The flow does contain one task per unique level (two
tasks here, named per level), but `previousTaskID` is redeclared inside
the loop, so every task — the lowest included — declares the singleton
dependency set holding the zero `TaskID` (the empty string), which is
not the lower-level task's ID and is not empty (the source test expects
nil dependencies on step 0 and step 0's task ID on step 1). -/
theorem scaleFlow_dependency_zero_taskID_bug :
    (createResourceScaleFlow demoResourceInfos).length = 2 ∧
    (createResourceScaleFlow demoResourceInfos).map FlowStep.name =
      [taskName 0, taskName 1] ∧
    (createResourceScaleFlow demoResourceInfos).map FlowStep.dependencies =
      [[""], [""]] ∧
    [""] ≠ [taskName 0] ∧ ([""] : List String) ≠ [] :=
  ⟨rfl, rfl, rfl, by decide, by decide⟩

/-- C5: the claim states that `createScaleTaskFn` returns, for N records
at one level, the parallel composition of exactly N task functions (one
scale action per record), and for N = 1 that record's single task
function.  The code violates this: `make([]flow.TaskFn, len)` pre-fills
the slice with N nil entries before the loop appends the N real
closures, so for one record the returned `taskFns[0]` is the nil
function, and for two records `flow.Parallel` receives four task
functions of which two are nil. -/
theorem createScaleTaskFn_nil_slots_bug :
    createScaleTaskFn [caInfo] [] = TaskFnRepr.nilFn ∧
    createScaleTaskFn [mcmInfo, kcmInfo] [] =
      TaskFnRepr.parallel [TaskFnRepr.nilFn, TaskFnRepr.nilFn,
        TaskFnRepr.scaleFn mcmInfo [], TaskFnRepr.scaleFn kcmInfo []] :=
  ⟨rfl, rfl⟩

/-- C3 counterexample: with no deployments in the cluster, the fetch for
`caInfo` returns not-found and `scale` returns that error — not success
as the claim states (the write list is empty, as claimed). -/
theorem scale_notFound_cex :
    scale { deployments := [] } false caInfo ScaleDownReplicasMismatch [] =
      { state := { deployments := [] }, writes := [], err := some ScaleErr.notFound } ∧
    some ScaleErr.notFound ≠ (none : Option ScaleErr) :=
  ⟨rfl, by decide⟩

/-- C3 amended: when the fetch of the workload fails (not-found
included), the scale action logs and returns that error, issuing no
scale write and leaving the state unchanged; the record is skipped. -/
theorem scale_fetch_error_returned (st : ClusterState) (ctxCancelled : Bool)
    (resourceInfo : ScaleableResourceInfo) (mismatchReplicas : Int → Int → Bool)
    (waitOnResourceInfos : List ScaleableResourceInfo) (e : ScaleErr)
    (h : GetDeploymentFor st resourceInfo.ref.name = Except.error e) :
    scale st ctxCancelled resourceInfo mismatchReplicas waitOnResourceInfos =
      { state := st, writes := [], err := some e } := by
  simp [scale, h]

/-- Witness for the C3 amended theorem at the empty cluster state. -/
theorem scale_fetch_error_returned_witness :
    scale { deployments := [] } true kcmInfo ScaleUpReplicasMismatch [] =
      { state := { deployments := [] }, writes := [], err := some ScaleErr.notFound } :=
  scale_fetch_error_returned { deployments := [] } true kcmInfo ScaleUpReplicasMismatch []
    ScaleErr.notFound rfl

/-- C4 counterexample: with a single attempt that fails retriably and a
context that is never done, the complete `Retry` trace is the attempt
followed by a full backoff sleep — a backoff sleep is performed after
the terminal attempt, falsifying the claim's no-terminal-sleep part. -/
theorem retry_sleep_after_terminal_cex :
    (Retry (T := Unit) (E := Unit) none (fun _ => Except.error ()) (fun _ => true) 1 5).1 =
      [REvent.call 1, REvent.sleep 5] ∧
    countCalls [REvent.call 1, REvent.sleep 5] = 1 ∧
    [REvent.call 1, REvent.sleep 5].getLast? = some (REvent.sleep 5) :=
  ⟨rfl, rfl, rfl⟩

/-- C4 amended: `Retry` invokes `fn` at most `numAttempts` times, and
the returned `RetryResult` carries either a success value produced by
`fn` within those attempts or an error produced by `fn` within those
attempts (or the context's error); no guarantee is made that the backoff
sleep is skipped after the terminal attempt — the loop sleeps after
every failed retriable attempt, the last included. -/
theorem retry_bounded_attempts {T E : Type} (doneAt : CtxDoneAt) (fn : Nat → Except E T)
    (canRetry : E → Bool) (numAttempts backOff : Nat) (_hn : 1 ≤ numAttempts) :
    countCalls (Retry doneAt fn canRetry numAttempts backOff).1 ≤ numAttempts ∧
    (∀ v, (Retry doneAt fn canRetry numAttempts backOff).2.2.value? = some v →
      ∃ j, 1 ≤ j ∧ j ≤ numAttempts ∧ fn j = Except.ok v) ∧
    (∀ e, (Retry doneAt fn canRetry numAttempts backOff).2.2.err? =
        some (RErr.fnErr e) →
      ∃ j, 1 ≤ j ∧ j ≤ numAttempts ∧ fn j = Except.error e) := by
  refine ⟨retryAux_countCalls_le _ _ _ _ _ _ _ _, ?_, ?_⟩
  · intro v hv
    obtain ⟨j, h1, h2, h3⟩ := retryAux_value_some _ _ _ _ _ _ _ _ v hv
    exact ⟨j, h1, by omega, h3⟩
  · intro e he
    rcases retryAux_err_fn _ _ _ _ _ _ _ _ e he with ⟨j, h1, h2, h3⟩ | hlast
    · exact ⟨j, h1, by omega, h3⟩
    · cases hlast

/-- Witness for the C4 amended theorem: two attempts that always fail
record at most two calls. -/
theorem retry_bounded_attempts_witness :
    countCalls (Retry (T := Unit) (E := Unit) none (fun _ => Except.error ())
      (fun _ => true) 2 5).1 ≤ 2 :=
  (retry_bounded_attempts none (fun _ => Except.error ()) (fun _ => true) 2 5
    (by decide)).1

/-- C6: when the fetched deployment carries the ignore-scaling
annotation with value "true", the scale action issues no scale write for
any mismatch direction and any wait-on set, leaves the cluster state
unchanged, and reports success. -/
theorem scale_ignore_annotation_skips (st : ClusterState)
    (resourceInfo : ScaleableResourceInfo) (mismatchReplicas : Int → Int → Bool)
    (waitOnResourceInfos : List ScaleableResourceInfo) (d : Deployment)
    (hfetch : GetDeploymentFor st resourceInfo.ref.name = Except.ok d)
    (hann : isIgnoreScalingAnnotationSet d = true) :
    scale st false resourceInfo mismatchReplicas waitOnResourceInfos =
      { state := st, writes := [], err := none } := by
  simp [scale, hfetch, shouldScale, hann]

/-- Witness for C6: an annotated deployment with replicas 1 against
scale-down target 0 (a genuine mismatch) is left untouched. -/
theorem scale_ignore_annotation_skips_witness :
    ScaleDownReplicasMismatch annotatedCADeployment.specReplicas caInfo.replicas = true ∧
    scale annotatedState false caInfo ScaleDownReplicasMismatch [] =
      { state := annotatedState, writes := [], err := none } :=
  ⟨by decide, scale_ignore_annotation_skips annotatedState caInfo ScaleDownReplicasMismatch
    [] annotatedCADeployment rfl rfl⟩

/-- Auxiliary: after any successful run of the scale action whose
mismatch predicate is false at the target (both concrete predicates
are), running the action again issues no write and changes nothing. -/
theorem scale_rerun_noop (st : ClusterState) (resourceInfo : ScaleableResourceInfo)
    (waitOnResourceInfos : List ScaleableResourceInfo) (P : Int → Int → Bool)
    (hPr : P resourceInfo.replicas resourceInfo.replicas = false)
    (st₂ : ClusterState) (writes : List ScaleWrite)
    (h : scale st false resourceInfo P waitOnResourceInfos =
      { state := st₂, writes := writes, err := none }) :
    scale st₂ false resourceInfo P waitOnResourceInfos =
      { state := st₂, writes := [], err := none } := by
  cases hf : GetDeploymentFor st resourceInfo.ref.name with
  | error e => simp [scale, hf] at h
  | ok d =>
    by_cases hS : shouldScale st d resourceInfo.replicas P waitOnResourceInfos = true
    · simp only [scale, hf, hS, if_pos, if_true, Bool.false_eq_true, if_false] at h
      obtain ⟨hst, -, -⟩ := ScaleOutcome.mk.inj h
      subst hst
      have hf2 := getDeploymentFor_applyScaleUpdate st resourceInfo.ref.name
        resourceInfo.replicas d hf
      simp [scale, hf2, shouldScale, hPr]
    · simp only [scale, hf, hS, Bool.false_eq_true, if_false] at h
      obtain ⟨hst, -, -⟩ := ScaleOutcome.mk.inj h
      subst hst
      simp [scale, hf, hS]

/-- C7: the mismatch predicates (current < target for scale-up, current
> target for scale-down) are false at equality; hence when the fetched
deployment's spec replicas already equal the record's target, the scale
action performs zero writes in both directions and returns success; and
after any successful run, running the action again (in either direction)
performs zero writes and leaves the state unchanged. -/
theorem scale_idempotent_at_target (st : ClusterState)
    (resourceInfo : ScaleableResourceInfo)
    (waitOnResourceInfos : List ScaleableResourceInfo) (d : Deployment)
    (hfetch : GetDeploymentFor st resourceInfo.ref.name = Except.ok d)
    (heq : d.specReplicas = resourceInfo.replicas) :
    (∀ n : Int, ScaleUpReplicasMismatch n n = false ∧
      ScaleDownReplicasMismatch n n = false) ∧
    scale st false resourceInfo ScaleUpReplicasMismatch waitOnResourceInfos =
      { state := st, writes := [], err := none } ∧
    scale st false resourceInfo ScaleDownReplicasMismatch waitOnResourceInfos =
      { state := st, writes := [], err := none } ∧
    (∀ st₂ writes,
      scale st false resourceInfo ScaleUpReplicasMismatch waitOnResourceInfos =
        { state := st₂, writes := writes, err := none } →
      scale st₂ false resourceInfo ScaleUpReplicasMismatch waitOnResourceInfos =
        { state := st₂, writes := [], err := none }) ∧
    (∀ st₂ writes,
      scale st false resourceInfo ScaleDownReplicasMismatch waitOnResourceInfos =
        { state := st₂, writes := writes, err := none } →
      scale st₂ false resourceInfo ScaleDownReplicasMismatch waitOnResourceInfos =
        { state := st₂, writes := [], err := none }) := by
  have hmm : ∀ (P : Int → Int → Bool),
      P d.specReplicas resourceInfo.replicas = false →
      scale st false resourceInfo P waitOnResourceInfos =
        { state := st, writes := [], err := none } := by
    intro P hP
    simp [scale, hfetch, shouldScale, hP]
  refine ⟨?_, hmm _ ?_, hmm _ ?_, ?_, ?_⟩
  · intro n
    constructor <;> simp [ScaleUpReplicasMismatch, ScaleDownReplicasMismatch]
  · rw [heq]; simp [ScaleUpReplicasMismatch]
  · rw [heq]; simp [ScaleDownReplicasMismatch]
  · intro st₂ writes hrun
    exact scale_rerun_noop st resourceInfo waitOnResourceInfos ScaleUpReplicasMismatch
      (by simp [ScaleUpReplicasMismatch]) st₂ writes hrun
  · intro st₂ writes hrun
    exact scale_rerun_noop st resourceInfo waitOnResourceInfos ScaleDownReplicasMismatch
      (by simp [ScaleDownReplicasMismatch]) st₂ writes hrun

/-- Witness for C7: a deployment already at the scale-down target is
left untouched by a scale-up run. -/
theorem scale_idempotent_at_target_witness :
    scale settledState false kcmInfo ScaleUpReplicasMismatch [] =
      { state := settledState, writes := [], err := none } :=
  (scale_idempotent_at_target settledState kcmInfo [] settledKCMDeployment rfl rfl).2.1

/-- C8: an event is handed to the weeder's event handler exactly when it
was delivered on the watch channel and passes `canProcessEvent`, and
`canProcessEvent` holds exactly on `Added`/`Modified` events whose
object is a Pod; closed-channel receives and all other events are
discarded while the loop continues. -/
theorem weeder_event_filter (items : List WatchItem) (e : WatchEvent) :
    (e ∈ watchHandled items ↔ WatchItem.ev e ∈ items ∧ canProcessEvent e = true) ∧
    (canProcessEvent e = true ↔
      ((e.type = EventType.added ∨ e.type = EventType.modified) ∧
        ∃ p, e.object = WatchObject.pod p)) :=
  ⟨watchHandled_mem items e, canProcessEvent_iff e⟩

/-- C9 counterexample: with the context done at time 1 and a watch
creation that keeps failing, `RetryOnError` with interval 10 returns
only at time 10 — the in-progress `time.Sleep` runs its full interval
past the cancellation instead of ending when the context is done. -/
theorem retryOnError_full_sleep_cex :
    RetryOnError (some 1) (fun _ => true) 10 3 = some (10, ROExit.ctxDone) ∧
    ¬ (10 ≤ 1) :=
  ⟨rfl, by decide⟩

/-- C9 amended: the backoff select inside `Retry` does observe
cancellation — a run under a context done at time `d` never runs past
`d` — but `RetryOnError`'s plain `time.Sleep` does not: whenever it
returns, its final time is a whole number of full sleep intervals, so a
cancellation mid-sleep is only observed at the next iteration boundary. -/
theorem retry_cancellation_semantics {T E : Type} (fn : Nat → Except E T)
    (canRetry : E → Bool) (numAttempts backOff d : Nat) (doneAt : CtxDoneAt)
    (fails : Nat → Bool) (interval fuel tf : Nat) (ex : ROExit)
    (h : RetryOnError doneAt fails interval fuel = some (tf, ex)) :
    (Retry (some d) fn canRetry numAttempts backOff).2.1 ≤ d ∧
    ∃ m, tf = m * interval := by
  constructor
  · exact retryAux_time_le fn canRetry backOff d numAttempts 1 0 none (Nat.zero_le d)
  · obtain ⟨m, hm⟩ := retryOnErrorAux_time doneAt fails interval fuel 0 0 tf ex h
    exact ⟨m, by omega⟩

/-- Witness for the C9 amended theorem: a retry under a context done at
time 3 finishes by time 3; a failing watch-creation loop returns at a
multiple of its interval. -/
theorem retry_cancellation_semantics_witness :
    (Retry (T := Unit) (E := Unit) (some 3) (fun _ => Except.error ())
      (fun _ => true) 2 10).2.1 ≤ 3 ∧
    ∃ m, (10 : Nat) = m * 10 :=
  retry_cancellation_semantics (fun _ => Except.error ()) (fun _ => true) 2 10 3
    (some 1) (fun _ => true) 10 3 10 ROExit.ctxDone rfl

/-- C10: `MustBeGreaterThan` returns true exactly when the value is
greater than *or equal to* the lower limit (despite its name and error
message); at equality it returns true and leaves the validator's errors
untouched; and its error list gains exactly one message precisely in the
strictly-less case. -/
theorem mustBeGreaterThan_ge (v : Validator) (key : String) (value lowerLimit : Int) :
    ((MustBeGreaterThan v key value lowerLimit).2 = true ↔ lowerLimit ≤ value) ∧
    MustBeGreaterThan v key lowerLimit lowerLimit = (v, true) ∧
    (MustBeGreaterThan v key value lowerLimit).1.errs =
      (if value < lowerLimit then v.errs ++ [mustBeGreaterThanMsg key lowerLimit value]
       else v.errs) := by
  refine ⟨?_, ?_, ?_⟩
  · by_cases h : value < lowerLimit
    · simp only [MustBeGreaterThan, if_pos h]
      constructor
      · intro hh
        exact absurd hh (by simp)
      · intro hh
        omega
    · simp only [MustBeGreaterThan, if_neg h]
      constructor
      · intro _
        omega
      · intro _
        trivial
  · simp [MustBeGreaterThan]
  · by_cases h : value < lowerLimit <;> simp [MustBeGreaterThan, h]

end DWD
